import Mathlib

/-!
Verification of the scope-aware mutation and coordination layer of the
vscode-todo extension.

The definitions below are a shallow embedding of the mutation orchestrator
and auto-delete coordinator found in the extension entry module
(activate / AutoDeleteCoordinator / clearScope / removeTodoWithUndo /
removeTodoWithoutUndo / handleWebview* in extension.ts).  The repository
(TodoRepository) and the domain ordering utilities (normalizePositions,
reorderTodosByOrder) are not part of the provided sources - only their
callers and declarations are - so they are modelled from the specification,
as marked on each such definition.

Timers (setTimeout) are modelled by an explicit map from a string key to a
pending timer entry carrying its absolute fire time; a timer callback is an
explicit step (fireTimer) taken at its fire time.  Wall-clock timestamps
(Date.now / new Date().toISOString()) are modelled as natural numbers that
are passed explicitly to each operation.  User-visible effects (webview
broadcasts, undo prompts, undo-success toasts, auto-delete fade cues)
are recorded in counters / lists of the system state.
-/

namespace VT

/-- UNDO_SNAPSHOT_TTL_MS from extension.ts. -/
def UNDO_SNAPSHOT_TTL_MS : Nat := 10000

/-- DEFAULT_AUTO_DELETE_DELAY_MS from extension.ts. -/
def DEFAULT_AUTO_DELETE_DELAY_MS : Nat := 1500

/-- DEFAULT_AUTO_DELETE_FADE_MS from extension.ts. -/
def DEFAULT_AUTO_DELETE_FADE_MS : Nat := 750

/-- The scope discriminator stored on a todo record. -/
inductive ScopeKind
  | global
  | workspace
deriving DecidableEq, Repr

/-- Modelled from the spec: the Todo record (section 3 data model); the
types module defining it is not among the provided sources.  updatedAt
timestamps are modelled as natural numbers. -/
structure Todo where
  id : String
  title : String
  completed : Bool
  position : Nat
  scope : ScopeKind
  workspaceFolder : Option String
  updatedAt : Nat
deriving DecidableEq, Repr

/-- ScopeTarget from src/types/scope.ts: identifies a storage partition. -/
inductive ScopeTarget
  | global
  | workspace (workspaceFolder : String)
deriving DecidableEq, Repr

/-- Association-list lookup used to model the string-keyed maps
(Map.get in the source). -/
def lookupAssoc {α : Type} : List (String × α) → String → Option α
  | [], _ => none
  | (k, v) :: rest, key => if k = key then some v else lookupAssoc rest key

/-- Removing every binding of a key (Map.delete in the source). -/
def eraseAssoc {α : Type} (m : List (String × α)) (key : String) : List (String × α) :=
  m.filter (fun p => p.1 != key)

/-- Overwriting binding of a key (Map.set in the source). -/
def setAssoc {α : Type} (m : List (String × α)) (key : String) (v : α) : List (String × α) :=
  (key, v) :: eraseAssoc m key

/-- Modelled from the spec: an undo snapshot entry held by the repository:
a full copy of a scope list plus the absolute time at which the fixed
10-second TTL elapses. -/
structure SnapshotEntry where
  todos : List Todo
  expiresAt : Nat
deriving DecidableEq, Repr

/-- Modelled from the spec: the TodoRepository state - a global partition,
one partition per workspace folder key, the scope-keyed undo snapshots and
a fresh-id counter (todoRepository.ts is not among the provided sources). -/
structure TodoRepository where
  globalTodos : List Todo
  workspaceTodos : List (String × List Todo)
  snapshots : List (String × SnapshotEntry)
  nextId : Nat
deriving Repr

/-- Modelled from the spec: getTodos for the global partition. -/
def getGlobalTodos (r : TodoRepository) : List Todo :=
  r.globalTodos

/-- Modelled from the spec: getTodos for a workspace partition; empty when
the partition was never initialized. -/
def getWorkspaceTodos (r : TodoRepository) (folderKey : String) : List Todo :=
  (lookupAssoc r.workspaceTodos folderKey).getD []

/-- Modelled from the spec: saveTodos replacing the global partition. -/
def saveGlobalTodos (r : TodoRepository) (todos : List Todo) : TodoRepository :=
  { r with globalTodos := todos }

/-- Modelled from the spec: saveTodos replacing one workspace partition. -/
def saveWorkspaceTodos (r : TodoRepository) (folderKey : String) (todos : List Todo) :
    TodoRepository :=
  { r with workspaceTodos := setAssoc r.workspaceTodos folderKey todos }

/-- Modelled from the spec: scopeKey - "global" for the global scope and the
workspace folder identifier for a workspace scope. -/
def scopeKey : ScopeTarget → String
  | .global => "global"
  | .workspace folderKey => folderKey

/-- Modelled from the spec: captureSnapshot stores a copy of the list under
the scope key, overwriting any prior snapshot for that key; the fixed TTL
starts at the destructive action. -/
def captureSnapshot (r : TodoRepository) (key : String) (todos : List Todo) (now : Nat) :
    TodoRepository :=
  { r with snapshots := setAssoc r.snapshots key ⟨todos, now + UNDO_SNAPSHOT_TTL_MS⟩ }

/-- Modelled from the spec: consumeSnapshot atomically returns and clears
the stored snapshot; returns none if absent or already expired/consumed. -/
def consumeSnapshot (r : TodoRepository) (key : String) (now : Nat) :
    Option (List Todo) × TodoRepository :=
  match lookupAssoc r.snapshots key with
  | none => (none, r)
  | some e =>
    if now < e.expiresAt then
      (some e.todos, { r with snapshots := eraseAssoc r.snapshots key })
    else
      (none, { r with snapshots := eraseAssoc r.snapshots key })

/-- Modelled from the spec: createTodo allocates a fresh id, sets
completed := false, leaves position temporarily unset (0) and stamps
updatedAt := now. -/
def createTodo (r : TodoRepository) (title : String) (scope : ScopeKind)
    (workspaceFolder : Option String) (now : Nat) : Todo × TodoRepository :=
  (⟨"todo-" ++ toString r.nextId, title, false, 0, scope, workspaceFolder, now⟩,
   { r with nextId := r.nextId + 1 })

/-- The comparison relation used to order todos by their position field. -/
def posLe (a b : Todo) : Prop :=
  a.position ≤ b.position

instance : DecidableRel posLe := fun a b => Nat.decLe a.position b.position

/-- Reassigning the position fields of a list to n, n+1, ... in list order. -/
def assignPositions : List Todo → Nat → List Todo
  | [], _ => []
  | t :: ts, n => { t with position := n } :: assignPositions ts (n + 1)

/-- Modelled from the spec: normalizePositions - stable sort by the existing
position (insertion order for ties) and reassign positions 1..N
(domain/todo.ts is not among the provided sources). -/
def normalizePositions (todos : List Todo) : List Todo :=
  assignPositions (todos.insertionSort posLe) 1

/-- Reassigning positions n, n+1, ... while stamping updatedAt := now on
every entry whose position actually changes. -/
def stampPositions : List Todo → Nat → Nat → List Todo
  | [], _, _ => []
  | t :: ts, n, now =>
    (if t.position = n then t else { t with position := n, updatedAt := now }) ::
      stampPositions ts (n + 1) now

/-- The order computed by reorderTodosByOrder: the todos named in orderedIds
first, in the given order (unknown ids ignored), followed by the todos not
named in orderedIds in their prior relative order. -/
def computeOrder (todos : List Todo) (orderedIds : List String) : List Todo :=
  orderedIds.filterMap (fun i => todos.find? (fun t => t.id == i)) ++
    todos.filter (fun t => !(orderedIds.contains t.id))

/-- Modelled from the spec: reorderTodosByOrder - returns the (possibly)
reordered list and whether anything changed; no mutation when the list has
at most one item or the computed order is identical to the existing order
(domain/todo.ts is not among the provided sources). -/
def reorderTodosByOrder (todos : List Todo) (orderedIds : List String) (now : Nat) :
    List Todo × Bool :=
  if todos.length ≤ 1 then (todos, false)
  else
    let ordered := computeOrder todos orderedIds
    if ordered.map (fun t => t.id) = todos.map (fun t => t.id) then (todos, false)
    else (stampPositions ordered 1 now, true)

/-- Timer phase of an auto-delete entry: the pending delay timer (holding
the fade duration it will use) or the pending fade/removal timer.  Fire
times are absolute. -/
inductive TimerPhase
  | delayPhase (fireAt : Nat) (fadeMs : Nat)
  | fadePhase (fireAt : Nat)
deriving DecidableEq, Repr

/-- One entry of the AutoDeleteCoordinator timer map (the setTimeout
closures capture the scope and todo id, modelled as stored fields). -/
structure TimerEntry where
  scope : ScopeTarget
  todoId : String
  phase : TimerPhase
deriving DecidableEq, Repr

/-- An autoDeleteCue message posted to the webview host. -/
structure AutoDeleteCue where
  scope : ScopeTarget
  todoId : String
  durationMs : Nat
deriving DecidableEq, Repr

/-- The system state threaded through the orchestrator: repository, the
coordinator timer map, and the observable UI effects (fade cues, state
broadcasts, undo prompts, undo-success toasts). -/
structure Sys where
  repo : TodoRepository
  timers : List (String × TimerEntry)
  cues : List AutoDeleteCue
  broadcasts : Nat
  undoPrompts : Nat
  undoSuccessNotices : Nat
deriving Repr

/-- The injected configuration (todo.* settings); a numeric setting read as
none models a non-numeric / NaN configuration value. -/
structure TodoConfig where
  autoDeleteCompleted : Bool
  autoDeleteDelayMs : Option Int
  autoDeleteFadeMs : Option Int
  confirmDestructiveActions : Bool
deriving Repr

/-- AutoDeleteCoordinator.sanitizeDelay: non-numeric, NaN or negative
values fall back to the default. -/
def sanitizeDelay (value : Option Int) (defaultValue : Nat) : Nat :=
  match value with
  | none => defaultValue
  | some v => if v < 0 then defaultValue else v.toNat

/-- AutoDeleteCoordinator.buildKey. -/
def buildKey : ScopeTarget → String → String
  | .global, todoId => "global:" ++ todoId
  | .workspace folderKey, todoId => folderKey ++ ":" ++ todoId

/-- AutoDeleteCoordinator.cancel: clears any pending timer for the key. -/
def cancelTimer (s : Sys) (scope : ScopeTarget) (todoId : String) : Sys :=
  { s with timers := eraseAssoc s.timers (buildKey scope todoId) }

/-- AutoDeleteCoordinator.cancelScope: cancel for every todo in the list. -/
def cancelScopeTimers (s : Sys) (scope : ScopeTarget) (todos : List Todo) : Sys :=
  todos.foldl (fun acc t => cancelTimer acc scope t.id) s

/-- AutoDeleteCoordinator.schedule: when auto-delete is disabled behaves as
cancel; otherwise cancels any existing timer for the key and starts the
delay timer, remembering the sanitized fade duration. -/
def scheduleAutoDelete (cfg : TodoConfig) (s : Sys) (scope : ScopeTarget) (todoId : String)
    (now : Nat) : Sys :=
  if !cfg.autoDeleteCompleted then cancelTimer s scope todoId
  else
    let delay := sanitizeDelay cfg.autoDeleteDelayMs DEFAULT_AUTO_DELETE_DELAY_MS
    let fadeDuration := sanitizeDelay cfg.autoDeleteFadeMs DEFAULT_AUTO_DELETE_FADE_MS
    let key := buildKey scope todoId
    let s1 := cancelTimer s scope todoId
    { s1 with timers := setAssoc s1.timers key ⟨scope, todoId, .delayPhase (now + delay) fadeDuration⟩ }

/-- readTodos from extension.ts. -/
def readTodos (r : TodoRepository) : ScopeTarget → List Todo
  | .global => getGlobalTodos r
  | .workspace folderKey => getWorkspaceTodos r folderKey

/-- persistTodos from extension.ts: normalize positions, then save the
target partition. -/
def persistTodos (r : TodoRepository) (scope : ScopeTarget) (todos : List Todo) :
    TodoRepository :=
  let normalized := normalizePositions todos
  match scope with
  | .global => saveGlobalTodos r normalized
  | .workspace folderKey => saveWorkspaceTodos r folderKey normalized

/-- broadcastWebviewState from extension.ts, modelled as an observable
counter bump. -/
def broadcastState (s : Sys) : Sys :=
  { s with broadcasts := s.broadcasts + 1 }

/-- removeTodoWithoutUndo from extension.ts: filter the id out and persist;
no snapshot, no prompt. -/
def removeTodoWithoutUndo (s : Sys) (scope : ScopeTarget) (todoId : String) : Sys × Bool :=
  let todos := readTodos s.repo scope
  let next := todos.filter (fun t => !(t.id == todoId))
  if next.length = todos.length then (s, false)
  else
    let s1 := { s with repo := persistTodos s.repo scope next }
    (broadcastState s1, true)

/-- A timer callback firing at time now: a delay timer posts the fade cue
and starts the fade/removal timer; a fade timer deletes its map entry and
performs the removal via removeTodoWithoutUndo; firing an absent key is a
no-op (the timer was canceled). -/
def fireTimer (s : Sys) (key : String) (now : Nat) : Sys :=
  match lookupAssoc s.timers key with
  | none => s
  | some e =>
    match e.phase with
    | .delayPhase _ fadeMs =>
      let s1 := { s with timers := setAssoc s.timers key ⟨e.scope, e.todoId, .fadePhase (now + fadeMs)⟩ }
      { s1 with cues := s1.cues ++ [⟨e.scope, e.todoId, fadeMs⟩] }
    | .fadePhase _ =>
      let s1 := { s with timers := eraseAssoc s.timers key }
      (removeTodoWithoutUndo s1 e.scope e.todoId).1

/-- In-place mutation of the first array element matched by the predicate
(the pattern "const todo = todos.find(...); todo.field = ..." followed by
persisting the same array). -/
def updateFirst (p : Todo → Bool) (f : Todo → Todo) : List Todo → List Todo
  | [] => []
  | x :: xs => if p x then f x :: xs else x :: updateFirst p f xs

/-- removeTodoWithUndo from extension.ts.  The user's reaction to the undo
prompt is modelled by undoAccepted and the absolute time undoTime at which
the reaction is processed. -/
def removeTodoWithUndo (s : Sys) (scope : ScopeTarget) (todoId : String) (now : Nat)
    (undoAccepted : Bool) (undoTime : Nat) : Sys × Bool :=
  let todos := readTodos s.repo scope
  match todos.find? (fun t => t.id == todoId) with
  | none => (s, false)
  | some _ =>
    let s1 := cancelTimer s scope todoId
    let key := scopeKey scope
    let s2 := { s1 with repo := captureSnapshot s1.repo key todos now }
    let next := todos.filter (fun t => !(t.id == todoId))
    let s3 := { s2 with repo := persistTodos s2.repo scope next }
    let s4 := broadcastState s3
    let s5 := { s4 with undoPrompts := s4.undoPrompts + 1 }
    if undoAccepted then
      match consumeSnapshot s5.repo key undoTime with
      | (some snapshot, r1) =>
        let s6 := { s5 with repo := persistTodos r1 scope snapshot }
        let s7 := { s6 with undoSuccessNotices := s6.undoSuccessNotices + 1 }
        (broadcastState s7, true)
      | (none, r1) => ({ s5 with repo := r1 }, true)
    else (s5, true)

/-- Outcome of clearScope, recording whether the empty-scope informational
notice and/or the destructive-action confirmation prompt were shown. -/
structure ClearOutcome where
  sys : Sys
  noticeShown : Bool
  confirmPromptShown : Bool

/-- The committed tail of clearScope (after the empty check and the
confirmation): capture snapshot, persist the emptied list, offer undo. -/
def clearScopeCommit (s : Sys) (scope : ScopeTarget) (todos : List Todo)
    (undoAccepted : Bool) (now : Nat) (undoTime : Nat) : Sys :=
  let key := scopeKey scope
  let s1 := { s with repo := captureSnapshot s.repo key todos now }
  let s2 := { s1 with repo := persistTodos s1.repo scope [] }
  let s3 := broadcastState s2
  let s4 := { s3 with undoPrompts := s3.undoPrompts + 1 }
  if undoAccepted then
    match consumeSnapshot s4.repo key undoTime with
    | (some snapshot, r1) =>
      let s5 := { s4 with repo := persistTodos r1 scope snapshot }
      let s6 := { s5 with undoSuccessNotices := s5.undoSuccessNotices + 1 }
      broadcastState s6
    | (none, r1) => { s4 with repo := r1 }
  else s4

/-- clearScope from extension.ts: zero-item scopes short-circuit with an
informational notice; otherwise all auto-delete timers of the scope are
canceled, a confirmation is required when the configuration flag is on and
more than one item would be cleared, and the commit path runs with an undo
grace period. -/
def clearScope (cfg : TodoConfig) (s : Sys) (scope : ScopeTarget)
    (confirmAccepted : Bool) (undoAccepted : Bool) (now : Nat) (undoTime : Nat) :
    ClearOutcome :=
  let todos := readTodos s.repo scope
  if todos.length = 0 then ⟨s, true, false⟩
  else
    let s1 := cancelScopeTimers s scope todos
    if cfg.confirmDestructiveActions && decide (1 < todos.length) then
      if confirmAccepted then
        ⟨clearScopeCommit s1 scope todos undoAccepted now undoTime, false, true⟩
      else ⟨s1, false, true⟩
    else ⟨clearScopeCommit s1 scope todos undoAccepted now undoTime, false, false⟩

/-- scopeFromWebviewScope from extension.ts: a workspace wire scope with a
falsy (empty) folder identifier resolves to nothing. -/
def scopeFromWebviewScope : ScopeTarget → Option ScopeTarget
  | .global => some .global
  | .workspace folderKey =>
    if folderKey = "" then none else some (.workspace folderKey)

/-- The JavaScript String.prototype.trim of the source, embedded over the
character list of the string. -/
def trimTitle (s : String) : String :=
  ⟨((s.data.dropWhile Char.isWhitespace).reverse.dropWhile Char.isWhitespace).reverse⟩

/-- handleWebviewCreate from extension.ts. -/
def handleWebviewCreate (r : TodoRepository) (scope : ScopeTarget) (title : String)
    (now : Nat) : TodoRepository × Bool :=
  let target? := scopeFromWebviewScope scope
  let trimmed := trimTitle title
  match target? with
  | none => (r, false)
  | some target =>
    if trimmed.length = 0 then (r, false)
    else
      let kind : ScopeKind := match target with | .global => .global | .workspace _ => .workspace
      let folder : Option String :=
        match target with | .global => none | .workspace folderKey => some folderKey
      let (todo, r1) := createTodo r trimmed kind folder now
      let todos := readTodos r1 target
      (persistTodos r1 target (todos ++ [todo]), true)

/-- handleWebviewEdit from extension.ts. -/
def handleWebviewEdit (r : TodoRepository) (scope : ScopeTarget) (todoId : String)
    (title : String) (now : Nat) : TodoRepository × Bool :=
  match scopeFromWebviewScope scope with
  | none => (r, false)
  | some target =>
    let trimmed := trimTitle title
    if trimmed.length = 0 then (r, false)
    else
      let todos := readTodos r target
      match todos.find? (fun t => t.id == todoId) with
      | none => (r, false)
      | some _ =>
        let next := updateFirst (fun t => t.id == todoId)
          (fun t => { t with title := trimmed, updatedAt := now }) todos
        (persistTodos r target next, true)

/-- handleWebviewToggle from extension.ts: flip the completion flag of the
found todo, persist, then schedule auto-delete when it became completed and
cancel when it became active. -/
def handleWebviewToggle (cfg : TodoConfig) (s : Sys) (scope : ScopeTarget) (todoId : String)
    (now : Nat) : Sys × Bool :=
  match scopeFromWebviewScope scope with
  | none => (s, false)
  | some target =>
    let todos := readTodos s.repo target
    match todos.find? (fun t => t.id == todoId) with
    | none => (s, false)
    | some todo =>
      let next := updateFirst (fun t => t.id == todoId)
        (fun t => { t with completed := !t.completed, updatedAt := now }) todos
      let s1 := { s with repo := persistTodos s.repo target next }
      if !todo.completed then (scheduleAutoDelete cfg s1 target todo.id now, true)
      else (cancelTimer s1 target todo.id, true)

/-- handleWebviewReorder from extension.ts. -/
def handleWebviewReorder (r : TodoRepository) (scope : ScopeTarget) (order : List String)
    (now : Nat) : TodoRepository × Bool :=
  match scopeFromWebviewScope scope with
  | none => (r, false)
  | some target =>
    let todos := readTodos r target
    if todos.length ≤ 1 then (r, false)
    else
      let result := reorderTodosByOrder todos order now
      if !result.2 then (r, false)
      else (persistTodos r target result.1, true)

/-! Association map lemmas. -/

theorem lookupAssoc_setAssoc_self {α : Type} (m : List (String × α)) (k : String) (v : α) :
    lookupAssoc (setAssoc m k v) k = some v := by
  simp [setAssoc, lookupAssoc]

theorem lookupAssoc_eraseAssoc_self {α : Type} (m : List (String × α)) (k : String) :
    lookupAssoc (eraseAssoc m k) k = none := by
  induction m with
  | nil => rfl
  | cons p rest ih =>
    simp only [eraseAssoc, List.filter_cons] at ih ⊢
    by_cases h : p.1 = k
    · simpa [h] using ih
    · simpa [lookupAssoc, h] using ih

theorem lookupAssoc_eraseAssoc_ne {α : Type} (m : List (String × α)) (k k' : String)
    (h : k' ≠ k) : lookupAssoc (eraseAssoc m k) k' = lookupAssoc m k' := by
  induction m with
  | nil => rfl
  | cons p rest ih =>
    by_cases hp : p.1 = k
    · have hk : ¬ p.1 = k' := fun hc => h (hc.symm.trans hp)
      have he : eraseAssoc (p :: rest) k = eraseAssoc rest k := by
        simp [eraseAssoc, List.filter_cons, hp]
      rw [he, ih]
      simp [lookupAssoc, hk]
    · have he : eraseAssoc (p :: rest) k = p :: eraseAssoc rest k := by
        simp [eraseAssoc, List.filter_cons, hp]
      rw [he]
      by_cases hp' : p.1 = k'
      · simp [lookupAssoc, hp']
      · simp [lookupAssoc, hp', ih]

theorem lookupAssoc_setAssoc_ne {α : Type} (m : List (String × α)) (k k' : String) (v : α)
    (h : k' ≠ k) : lookupAssoc (setAssoc m k v) k' = lookupAssoc m k' := by
  simp only [setAssoc, lookupAssoc, if_neg (Ne.symm h)]
  exact lookupAssoc_eraseAssoc_ne m k k' h

theorem lookupAssoc_eraseAssoc_none {α : Type} (m : List (String × α)) (k k' : String)
    (h : lookupAssoc m k' = none) : lookupAssoc (eraseAssoc m k) k' = none := by
  by_cases hk : k' = k
  · subst hk; exact lookupAssoc_eraseAssoc_self m k'
  · rw [lookupAssoc_eraseAssoc_ne m k k' hk]; exact h

/-! Repository frame lemmas. -/

theorem persistTodos_snapshots (r : TodoRepository) (scope : ScopeTarget) (todos : List Todo) :
    (persistTodos r scope todos).snapshots = r.snapshots := by
  cases scope <;> rfl

theorem readTodos_persistTodos_self (r : TodoRepository) (scope : ScopeTarget)
    (todos : List Todo) :
    readTodos (persistTodos r scope todos) scope = normalizePositions todos := by
  cases scope with
  | global => rfl
  | workspace folderKey =>
    simp [persistTodos, readTodos, getWorkspaceTodos, saveWorkspaceTodos,
      lookupAssoc_setAssoc_self]

theorem readTodos_captureSnapshot (r : TodoRepository) (key : String) (todos : List Todo)
    (now : Nat) (scope : ScopeTarget) :
    readTodos (captureSnapshot r key todos now) scope = readTodos r scope := by
  cases scope <;> rfl

theorem consumeSnapshot_globalTodos (r : TodoRepository) (key : String) (now : Nat) :
    ((consumeSnapshot r key now).2).globalTodos = r.globalTodos := by
  unfold consumeSnapshot
  cases lookupAssoc r.snapshots key with
  | none => rfl
  | some e => by_cases h : now < e.expiresAt <;> simp [h]

theorem consumeSnapshot_workspaceTodos (r : TodoRepository) (key : String) (now : Nat) :
    ((consumeSnapshot r key now).2).workspaceTodos = r.workspaceTodos := by
  unfold consumeSnapshot
  cases lookupAssoc r.snapshots key with
  | none => rfl
  | some e => by_cases h : now < e.expiresAt <;> simp [h]

theorem readTodos_consumeSnapshot (r : TodoRepository) (key : String) (now : Nat)
    (scope : ScopeTarget) :
    readTodos ((consumeSnapshot r key now).2) scope = readTodos r scope := by
  cases scope with
  | global =>
    simp [readTodos, getGlobalTodos, consumeSnapshot_globalTodos]
  | workspace folderKey =>
    simp [readTodos, getWorkspaceTodos, consumeSnapshot_workspaceTodos]

/-! Normalization lemmas. -/

theorem assignPositions_map_position (l : List Todo) (n : Nat) :
    (assignPositions l n).map (fun t => t.position) = List.range' n l.length := by
  induction l generalizing n with
  | nil => rfl
  | cons t ts ih => simp [assignPositions, List.range'_succ, ih]

theorem assignPositions_position_ge (l : List Todo) (n : Nat) :
    ∀ x ∈ assignPositions l n, n ≤ x.position := by
  induction l generalizing n with
  | nil => intro x hx; cases hx
  | cons t ts ih =>
    intro x hx
    rcases List.mem_cons.mp hx with hx | hx
    · subst hx; simp
    · exact Nat.le_of_succ_le (ih (n + 1) x hx)

theorem assignPositions_sorted (l : List Todo) (n : Nat) :
    List.Sorted posLe (assignPositions l n) := by
  induction l generalizing n with
  | nil => exact List.sorted_nil
  | cons t ts ih =>
    rw [assignPositions, List.sorted_cons]
    refine ⟨fun b hb => ?_, ih (n + 1)⟩
    exact Nat.le_of_succ_le (assignPositions_position_ge ts (n + 1) b hb)

theorem assignPositions_assignPositions (l : List Todo) (n : Nat) :
    assignPositions (assignPositions l n) n = assignPositions l n := by
  induction l generalizing n with
  | nil => rfl
  | cons t ts ih => simp [assignPositions, ih]

theorem normalizePositions_idem (l : List Todo) :
    normalizePositions (normalizePositions l) = normalizePositions l := by
  unfold normalizePositions
  rw [List.Sorted.insertionSort_eq (assignPositions_sorted _ 1),
    assignPositions_assignPositions]

theorem normalizePositions_map_position (l : List Todo) :
    (normalizePositions l).map (fun t => t.position) = List.range' 1 l.length := by
  unfold normalizePositions
  rw [assignPositions_map_position, (List.perm_insertionSort posLe l).length_eq]

/-- Every field of a todo except the position it is assigned by
normalization. -/
def stripPos (t : Todo) : String × String × Bool × ScopeKind × Option String × Nat :=
  (t.id, t.title, t.completed, t.scope, t.workspaceFolder, t.updatedAt)

theorem assignPositions_map_stripPos (l : List Todo) (n : Nat) :
    (assignPositions l n).map stripPos = l.map stripPos := by
  induction l generalizing n with
  | nil => rfl
  | cons t ts ih => simp [assignPositions, stripPos, ih]

theorem normalizePositions_stripPos_perm (l : List Todo) :
    List.Perm ((normalizePositions l).map stripPos) (l.map stripPos) := by
  unfold normalizePositions
  rw [assignPositions_map_stripPos]
  exact (List.perm_insertionSort posLe l).map stripPos

theorem mem_normalizePositions (l : List Todo) (x : Todo)
    (hx : x ∈ normalizePositions l) : ∃ y ∈ l, stripPos y = stripPos x := by
  have h1 : stripPos x ∈ (normalizePositions l).map stripPos := List.mem_map_of_mem _ hx
  have h2 : stripPos x ∈ l.map stripPos :=
    (normalizePositions_stripPos_perm l).mem_iff.mp h1
  rcases List.mem_map.mp h2 with ⟨y, hy, hxy⟩
  exact ⟨y, hy, hxy⟩

theorem normalizePositions_mem (l : List Todo) (y : Todo) (hy : y ∈ l) :
    ∃ x ∈ normalizePositions l, stripPos x = stripPos y := by
  have h1 : stripPos y ∈ l.map stripPos := List.mem_map_of_mem _ hy
  have h2 : stripPos y ∈ (normalizePositions l).map stripPos :=
    (normalizePositions_stripPos_perm l).mem_iff.mpr h1
  rcases List.mem_map.mp h2 with ⟨x, hx, hxy⟩
  exact ⟨x, hx, hxy⟩

theorem normalizePositions_id_perm (l : List Todo) :
    List.Perm ((normalizePositions l).map (fun t => t.id)) (l.map (fun t => t.id)) := by
  have h : ∀ m : List Todo, m.map (fun t => t.id) = (m.map stripPos).map (fun p => p.1) := by
    intro m; rw [List.map_map]; rfl
  rw [h (normalizePositions l), h l]
  exact (normalizePositions_stripPos_perm l).map _

theorem normalizePositions_nodup_id (l : List Todo)
    (h : (l.map (fun t => t.id)).Nodup) :
    ((normalizePositions l).map (fun t => t.id)).Nodup :=
  ((normalizePositions_id_perm l).nodup_iff).mpr h

/-! updateFirst lemmas. -/

theorem updateFirst_map_id (p : Todo → Bool) (f : Todo → Todo)
    (hf : ∀ x, (f x).id = x.id) (l : List Todo) :
    (updateFirst p f l).map (fun t => t.id) = l.map (fun t => t.id) := by
  induction l with
  | nil => rfl
  | cons x xs ih =>
    by_cases h : p x
    · simp [updateFirst, h, hf]
    · simp [updateFirst, h, ih]

theorem mem_updateFirst (p : Todo → Bool) (f : Todo → Todo) (l : List Todo) (x : Todo)
    (hx : x ∈ updateFirst p f l) : x ∈ l ∨ ∃ y ∈ l, p y = true ∧ x = f y := by
  induction l with
  | nil => cases hx
  | cons z zs ih =>
    by_cases h : p z
    · rw [updateFirst, if_pos h] at hx
      rcases List.mem_cons.mp hx with hx | hx
      · exact Or.inr ⟨z, List.mem_cons_self z zs, h, hx⟩
      · exact Or.inl (List.mem_cons_of_mem z hx)
    · rw [updateFirst, if_neg h] at hx
      rcases List.mem_cons.mp hx with hx | hx
      · exact Or.inl (hx ▸ List.mem_cons_self z zs)
      · rcases ih hx with h1 | ⟨y, hy, hpy, hxy⟩
        · exact Or.inl (List.mem_cons_of_mem z h1)
        · exact Or.inr ⟨y, List.mem_cons_of_mem z hy, hpy, hxy⟩

theorem updateFirst_mem_of_find? (p : Todo → Bool) (f : Todo → Todo) (l : List Todo)
    (t : Todo) (h : l.find? p = some t) : f t ∈ updateFirst p f l := by
  induction l with
  | nil => simp [List.find?] at h
  | cons x xs ih =>
    by_cases hp : p x
    · rw [List.find?_cons_of_pos _ hp] at h
      cases h
      rw [updateFirst, if_pos hp]
      exact List.mem_cons_self _ _
    · rw [List.find?_cons_of_neg _ hp] at h
      rw [updateFirst, if_neg hp]
      exact List.mem_cons_of_mem x (ih h)

theorem find?_exists_of_mem (p : Todo → Bool) (l : List Todo) (x : Todo)
    (hx : x ∈ l) (hp : p x = true) : ∃ u, l.find? p = some u := by
  have : (l.find? p).isSome := List.find?_isSome.mpr ⟨x, hx, hp⟩
  exact Option.isSome_iff_exists.mp this

/-! Small frame facts about the system-state wrappers. -/

theorem cancelTimer_repo (s : Sys) (scope : ScopeTarget) (todoId : String) :
    (cancelTimer s scope todoId).repo = s.repo :=
  rfl

theorem broadcastState_repo (s : Sys) : (broadcastState s).repo = s.repo :=
  rfl

theorem cancelScopeTimers_repo (s : Sys) (scope : ScopeTarget) (todos : List Todo) :
    (cancelScopeTimers s scope todos).repo = s.repo := by
  induction todos generalizing s with
  | nil => rfl
  | cons t ts ih => simpa [cancelScopeTimers, List.foldl_cons, cancelTimer] using ih _

/-- A sample empty repository used by concrete witnesses. -/
def repo0 : TodoRepository :=
  ⟨[], [], [], 0⟩

/-- A sample system state with an empty repository. -/
def sys0 : Sys :=
  ⟨repo0, [], [], 0, 0, 0⟩

/-- C5: normalizePositions is idempotent, and for every non-empty input
list the result's position fields are exactly 1..N in list order with no
gaps or duplicates. -/
theorem claim_C5_normalization_idem_dense (L : List Todo) :
    normalizePositions (normalizePositions L) = normalizePositions L ∧
    (L ≠ [] →
      (normalizePositions L).map (fun t => t.position) = List.range' 1 L.length) :=
  ⟨normalizePositions_idem L, fun _ => normalizePositions_map_position L⟩

/-- Witness for C5 at a concrete two-element list with scrambled positions. -/
theorem claim_C5_normalization_idem_dense_witness :
    ([(⟨"a", "A", false, 5, .global, none, 0⟩ : Todo),
      ⟨"b", "B", true, 2, .global, none, 0⟩] ≠ ([] : List Todo)) ∧
    (normalizePositions
      [(⟨"a", "A", false, 5, .global, none, 0⟩ : Todo),
       ⟨"b", "B", true, 2, .global, none, 0⟩]).map (fun t => t.position)
      = List.range' 1 2 :=
  ⟨by decide,
   (claim_C5_normalization_idem_dense
     [⟨"a", "A", false, 5, .global, none, 0⟩, ⟨"b", "B", true, 2, .global, none, 0⟩]).2
     (by decide)⟩

/-- C8: a create or edit request whose title is empty or whitespace-only
after trimming is a no-op: the repository is unchanged, nothing is
persisted and no error is surfaced (the handler just reports false). -/
theorem claim_C8_empty_title_noop (r : TodoRepository) (scope : ScopeTarget)
    (todoId : String) (title : String) (now : Nat) (h : trimTitle title = "") :
    handleWebviewCreate r scope title now = (r, false) ∧
    handleWebviewEdit r scope todoId title now = (r, false) := by
  constructor
  · unfold handleWebviewCreate
    rw [h]
    cases scopeFromWebviewScope scope <;> simp
  · unfold handleWebviewEdit
    cases scopeFromWebviewScope scope <;> simp [h]

/-- Witness for C8 on a whitespace-only title. -/
theorem claim_C8_empty_title_noop_witness :
    trimTitle "  " = "" ∧
    handleWebviewCreate repo0 .global "  " 7 = (repo0, false) ∧
    handleWebviewEdit repo0 .global "todo-0" "  " 7 = (repo0, false) :=
  ⟨by decide,
   (claim_C8_empty_title_noop repo0 .global "todo-0" "  " 7 (by decide)).1,
   (claim_C8_empty_title_noop repo0 .global "todo-0" "  " 7 (by decide)).2⟩

/-! consumeSnapshot helper lemmas. -/

theorem consumeSnapshot_absent (r : TodoRepository) (key : String) (now : Nat)
    (h : lookupAssoc r.snapshots key = none) : consumeSnapshot r key now = (none, r) := by
  unfold consumeSnapshot
  rw [h]

theorem consumeSnapshot_clears (r : TodoRepository) (key : String) (now : Nat) :
    lookupAssoc ((consumeSnapshot r key now).2).snapshots key = none := by
  unfold consumeSnapshot
  cases h : lookupAssoc r.snapshots key with
  | none => simpa using h
  | some e =>
    by_cases hlt : now < e.expiresAt <;> simp [hlt, lookupAssoc_eraseAssoc_self]

theorem consumeSnapshot_fresh (r : TodoRepository) (key : String) (now : Nat)
    (e : SnapshotEntry) (h : lookupAssoc r.snapshots key = some e)
    (hlt : now < e.expiresAt) : (consumeSnapshot r key now).1 = some e.todos := by
  unfold consumeSnapshot
  rw [h]
  simp [hlt]

theorem consumeSnapshot_stale (r : TodoRepository) (key : String) (now : Nat)
    (e : SnapshotEntry) (h : lookupAssoc r.snapshots key = some e)
    (hge : e.expiresAt ≤ now) : (consumeSnapshot r key now).1 = none := by
  unfold consumeSnapshot
  rw [h]
  simp [Nat.not_lt.mpr hge]

/-- After removeTodoWithUndo declines the undo, the repository holds the
pre-removal list as a snapshot under the scope key, expiring at
now + UNDO_SNAPSHOT_TTL_MS. -/
theorem removeTodoWithUndo_declined_snapshot (s : Sys) (scope : ScopeTarget)
    (todoId : String) (todo : Todo) (now : Nat)
    (hfind : (readTodos s.repo scope).find? (fun t => t.id == todoId) = some todo) :
    lookupAssoc (((removeTodoWithUndo s scope todoId now false 0).1).repo).snapshots
        (scopeKey scope)
      = some ⟨readTodos s.repo scope, now + UNDO_SNAPSHOT_TTL_MS⟩ := by
  unfold removeTodoWithUndo
  simp only [hfind]
  simp [broadcastState, cancelTimer, persistTodos_snapshots, captureSnapshot,
    lookupAssoc_setAssoc_self]

/-! Scope-partition frame lemmas. -/

theorem persistTodos_workspace_lookup_ne (r : TodoRepository) (f : String) (ts : List Todo)
    (k : String) (h : k ≠ f) :
    lookupAssoc ((persistTodos r (.workspace f) ts)).workspaceTodos k
      = lookupAssoc r.workspaceTodos k := by
  simp only [persistTodos, saveWorkspaceTodos]
  exact lookupAssoc_setAssoc_ne _ _ _ _ h

theorem getWorkspaceTodos_congr (r1 r2 : TodoRepository) (k : String)
    (h : lookupAssoc r1.workspaceTodos k = lookupAssoc r2.workspaceTodos k) :
    getWorkspaceTodos r1 k = getWorkspaceTodos r2 k := by
  simp [getWorkspaceTodos, h]

theorem consume_pair_workspaceTodos (r : TodoRepository) (key : String) (t : Nat)
    (o : Option (List Todo)) (r1 : TodoRepository) (h : consumeSnapshot r key t = (o, r1)) :
    r1.workspaceTodos = r.workspaceTodos := by
  have hw := consumeSnapshot_workspaceTodos r key t
  rw [h] at hw
  exact hw

theorem consume_pair_globalTodos (r : TodoRepository) (key : String) (t : Nat)
    (o : Option (List Todo)) (r1 : TodoRepository) (h : consumeSnapshot r key t = (o, r1)) :
    r1.globalTodos = r.globalTodos := by
  have hw := consumeSnapshot_globalTodos r key t
  rw [h] at hw
  exact hw

theorem persistTodos_workspace_lookup_ne2 (f k : String) (h : k ≠ f) (r : TodoRepository)
    (ts : List Todo) :
    lookupAssoc ((persistTodos r (.workspace f) ts)).workspaceTodos k
      = lookupAssoc r.workspaceTodos k :=
  persistTodos_workspace_lookup_ne r f ts k h

theorem captureSnapshot_workspaceTodos (r : TodoRepository) (key : String) (ts : List Todo)
    (now : Nat) : (captureSnapshot r key ts now).workspaceTodos = r.workspaceTodos :=
  rfl

theorem captureSnapshot_globalTodos (r : TodoRepository) (key : String) (ts : List Todo)
    (now : Nat) : (captureSnapshot r key ts now).globalTodos = r.globalTodos :=
  rfl

theorem persistTodos_workspace_globalTodos (f : String) (r : TodoRepository) (ts : List Todo) :
    (persistTodos r (.workspace f) ts).globalTodos = r.globalTodos :=
  rfl

theorem clearScopeCommit_workspace_lookup_ne (s : Sys) (f : String) (todos : List Todo)
    (ua : Bool) (now ut : Nat) (k : String) (h : k ≠ f) :
    lookupAssoc (((clearScopeCommit s (.workspace f) todos ua now ut)).repo).workspaceTodos k
      = lookupAssoc s.repo.workspaceTodos k := by
  unfold clearScopeCommit
  simp only [broadcastState]
  split
  · split
    · rename_i snapshot r1 hc
      have hw := consume_pair_workspaceTodos _ _ _ _ _ hc
      simp [persistTodos_workspace_lookup_ne2 f k h, hw, captureSnapshot_workspaceTodos]
    · rename_i r1 hc
      have hw := consume_pair_workspaceTodos _ _ _ _ _ hc
      simp [persistTodos_workspace_lookup_ne2 f k h, hw, captureSnapshot_workspaceTodos]
  · simp [persistTodos_workspace_lookup_ne2 f k h, captureSnapshot_workspaceTodos]

theorem clearScopeCommit_globalTodos_workspace (s : Sys) (f : String) (todos : List Todo)
    (ua : Bool) (now ut : Nat) :
    (((clearScopeCommit s (.workspace f) todos ua now ut)).repo).globalTodos
      = s.repo.globalTodos := by
  unfold clearScopeCommit
  simp only [broadcastState]
  split
  · split
    · rename_i snapshot r1 hc
      have hg := consume_pair_globalTodos _ _ _ _ _ hc
      simp [persistTodos_workspace_globalTodos, hg, captureSnapshot_globalTodos]
    · rename_i r1 hc
      have hg := consume_pair_globalTodos _ _ _ _ _ hc
      simp [persistTodos_workspace_globalTodos, hg, captureSnapshot_globalTodos]
  · simp [persistTodos_workspace_globalTodos, captureSnapshot_globalTodos]

/-- C7: each persist targets exactly one scope partition - persisting the
global scope never alters any workspace list, persisting a workspace scope
alters neither the global list nor any other folder's list, and a full
clear-scope flow on one workspace folder leaves every sibling folder's list
and the global list unchanged. -/
theorem claim_C7_scope_isolation :
    (∀ (r : TodoRepository) (ts : List Todo) (k : String),
      getWorkspaceTodos (persistTodos r .global ts) k = getWorkspaceTodos r k) ∧
    (∀ (r : TodoRepository) (ts : List Todo) (f : String),
      (persistTodos r (.workspace f) ts).globalTodos = r.globalTodos) ∧
    (∀ (r : TodoRepository) (ts : List Todo) (f k : String), k ≠ f →
      getWorkspaceTodos (persistTodos r (.workspace f) ts) k = getWorkspaceTodos r k) ∧
    (∀ (cfg : TodoConfig) (s : Sys) (f : String) (ca ua : Bool) (now ut : Nat) (k : String),
      k ≠ f →
        getWorkspaceTodos ((clearScope cfg s (.workspace f) ca ua now ut).sys.repo) k
          = getWorkspaceTodos s.repo k ∧
        ((clearScope cfg s (.workspace f) ca ua now ut).sys.repo).globalTodos
          = s.repo.globalTodos) := by
  refine ⟨fun r ts k => rfl, fun r ts f => rfl, ?_, ?_⟩
  · intro r ts f k h
    exact getWorkspaceTodos_congr _ _ _ (persistTodos_workspace_lookup_ne r f ts k h)
  · intro cfg s f ca ua now ut k h
    have hrepo := cancelScopeTimers_repo s (.workspace f) (readTodos s.repo (.workspace f))
    simp only [clearScope]
    split
    · exact ⟨rfl, rfl⟩
    · split
      · split
        · constructor
          · refine getWorkspaceTodos_congr _ _ _ ?_
            rw [clearScopeCommit_workspace_lookup_ne _ _ _ _ _ _ _ h, hrepo]
          · rw [clearScopeCommit_globalTodos_workspace, hrepo]
        · exact ⟨getWorkspaceTodos_congr _ _ _ (by rw [hrepo]), by rw [hrepo]⟩
      · constructor
        · refine getWorkspaceTodos_congr _ _ _ ?_
          rw [clearScopeCommit_workspace_lookup_ne _ _ _ _ _ _ _ h, hrepo]
        · rw [clearScopeCommit_globalTodos_workspace, hrepo]

/-- Witness for C7: persisting folder "w1" and clearing folder "w1" leave
folder "w2" and the global list untouched in a concrete two-folder state. -/
theorem claim_C7_scope_isolation_witness :
    getWorkspaceTodos
      (persistTodos
        ⟨[⟨"g", "G", false, 1, .global, none, 0⟩],
         [("w2", [⟨"b", "B", false, 1, .workspace, some "w2", 0⟩])], [], 2⟩
        (.workspace "w1") [⟨"a", "A", false, 1, .workspace, some "w1", 0⟩]) "w2"
      = [⟨"b", "B", false, 1, .workspace, some "w2", 0⟩] ∧
    ((clearScope ⟨true, none, none, true⟩
        ⟨⟨[⟨"g", "G", false, 1, .global, none, 0⟩],
          [("w1", [⟨"a", "A", false, 1, .workspace, some "w1", 0⟩]),
           ("w2", [⟨"b", "B", false, 1, .workspace, some "w2", 0⟩])], [], 2⟩,
          [], [], 0, 0, 0⟩
        (.workspace "w1") true false 0 0).sys.repo).globalTodos
      = [⟨"g", "G", false, 1, .global, none, 0⟩] := by
  constructor
  · rw [(claim_C7_scope_isolation.2.2.1 _ _ "w1" "w2" (by decide))]
    decide
  · rw [(claim_C7_scope_isolation.2.2.2 ⟨true, none, none, true⟩ _ "w1" true false 0 0 "w2"
      (by decide)).2]

/-- C6: clear-scope on an empty scope shows only the informational notice
and performs no mutation, snapshot or persist; with the confirmation flag
on and more than one todo, a confirmation prompt is shown and declining it
leaves the persisted repository unchanged; with exactly one todo, or with
the flag off, clearing proceeds without any confirmation prompt. -/
theorem claim_C6_clear_confirmation :
    (∀ (cfg : TodoConfig) (s : Sys) (scope : ScopeTarget) (ca ua : Bool) (now ut : Nat),
      readTodos s.repo scope = [] →
        clearScope cfg s scope ca ua now ut = ⟨s, true, false⟩) ∧
    (∀ (cfg : TodoConfig) (s : Sys) (scope : ScopeTarget) (ua : Bool) (now ut : Nat),
      cfg.confirmDestructiveActions = true → 1 < (readTodos s.repo scope).length →
        (clearScope cfg s scope false ua now ut).confirmPromptShown = true ∧
        (clearScope cfg s scope false ua now ut).sys.repo = s.repo) ∧
    (∀ (cfg : TodoConfig) (s : Sys) (scope : ScopeTarget) (ca : Bool) (now ut : Nat),
      (readTodos s.repo scope).length = 1 →
        (clearScope cfg s scope ca false now ut).confirmPromptShown = false ∧
        readTodos ((clearScope cfg s scope ca false now ut).sys.repo) scope = []) ∧
    (∀ (cfg : TodoConfig) (s : Sys) (scope : ScopeTarget) (ca : Bool) (now ut : Nat),
      cfg.confirmDestructiveActions = false → readTodos s.repo scope ≠ [] →
        (clearScope cfg s scope ca false now ut).confirmPromptShown = false ∧
        readTodos ((clearScope cfg s scope ca false now ut).sys.repo) scope = []) := by
  refine ⟨?_, ?_, ?_, ?_⟩
  · intro cfg s scope ca ua now ut h
    simp [clearScope, h]
  · intro cfg s scope ua now ut hconf hlen
    have h0 : ¬ (readTodos s.repo scope).length = 0 := by omega
    constructor
    · simp [clearScope, h0, hconf, hlen]
    · simp [clearScope, h0, hconf, hlen, cancelScopeTimers_repo]
  · intro cfg s scope ca now ut hlen
    have h0 : ¬ (readTodos s.repo scope).length = 0 := by omega
    constructor
    · simp [clearScope, h0, hlen]
    · simp [clearScope, h0, hlen, clearScopeCommit, broadcastState,
        readTodos_persistTodos_self, normalizePositions, List.insertionSort, assignPositions]
  · intro cfg s scope ca now ut hconf hne
    have h0 : ¬ (readTodos s.repo scope).length = 0 := by
      simpa [List.length_eq_zero] using hne
    constructor
    · simp [clearScope, h0, hconf]
    · simp [clearScope, h0, hconf, clearScopeCommit, broadcastState,
        readTodos_persistTodos_self, normalizePositions, List.insertionSort, assignPositions]

/-- Witness for C6: an empty global scope short-circuits; a two-item global
scope with confirmation on and declined stays unchanged; a one-item global
scope clears without a prompt. -/
theorem claim_C6_clear_confirmation_witness :
    clearScope ⟨true, none, none, true⟩ sys0 .global true false 0 0 = ⟨sys0, true, false⟩ ∧
    (clearScope ⟨true, none, none, true⟩
      ⟨⟨[⟨"a", "A", false, 1, .global, none, 0⟩, ⟨"b", "B", false, 2, .global, none, 0⟩],
        [], [], 2⟩, [], [], 0, 0, 0⟩ .global false false 0 0).sys.repo
      = ⟨[⟨"a", "A", false, 1, .global, none, 0⟩, ⟨"b", "B", false, 2, .global, none, 0⟩],
        [], [], 2⟩ ∧
    (clearScope ⟨true, none, none, true⟩
      ⟨⟨[⟨"a", "A", false, 1, .global, none, 0⟩], [], [], 1⟩, [], [], 0, 0, 0⟩
      .global true false 0 0).confirmPromptShown = false :=
  ⟨claim_C6_clear_confirmation.1 ⟨true, none, none, true⟩ sys0 .global true false 0 0 rfl,
   (claim_C6_clear_confirmation.2.1 ⟨true, none, none, true⟩
     ⟨⟨[⟨"a", "A", false, 1, .global, none, 0⟩, ⟨"b", "B", false, 2, .global, none, 0⟩],
       [], [], 2⟩, [], [], 0, 0, 0⟩ .global false 0 0 rfl (by decide)).2,
   (claim_C6_clear_confirmation.2.2.1 ⟨true, none, none, true⟩
     ⟨⟨[⟨"a", "A", false, 1, .global, none, 0⟩], [], [], 1⟩, [], [], 0, 0, 0⟩
     .global true 0 0 (by decide)).1⟩

theorem readTodos_set_snapshots (r : TodoRepository) (sn : List (String × SnapshotEntry))
    (scope : ScopeTarget) :
    readTodos { r with snapshots := sn } scope = readTodos r scope := by
  cases scope <;> rfl

theorem cancelScopeTimers_eq (s : Sys) (scope : ScopeTarget) (todos : List Todo) :
    ∃ tm, cancelScopeTimers s scope todos = { s with timers := tm } := by
  induction todos generalizing s with
  | nil => exact ⟨s.timers, rfl⟩
  | cons t ts ih =>
    rcases ih (cancelTimer s scope t.id) with ⟨tm, htm⟩
    exact ⟨tm, by simpa [cancelScopeTimers, List.foldl_cons, cancelTimer] using htm⟩

/-- The clear-scope commit path when the undo is accepted only after the
snapshot TTL has elapsed: the scope stays cleared, no undo-success toast is
shown and only the single post-clear broadcast happens. -/
theorem clearScopeCommit_expired (s : Sys) (scope : ScopeTarget) (todos : List Todo)
    (now u : Nat) (hexp : now + UNDO_SNAPSHOT_TTL_MS ≤ u) :
    readTodos ((clearScopeCommit s scope todos true now u)).repo scope = [] ∧
    ((clearScopeCommit s scope todos true now u)).undoSuccessNotices = s.undoSuccessNotices ∧
    ((clearScopeCommit s scope todos true now u)).broadcasts = s.broadcasts + 1 := by
  have hnl : ¬ (u < now + UNDO_SNAPSHOT_TTL_MS) := Nat.not_lt.mpr hexp
  simp [clearScopeCommit, broadcastState, consumeSnapshot, persistTodos_snapshots,
    captureSnapshot, lookupAssoc_setAssoc_self, hnl, readTodos_set_snapshots,
    readTodos_persistTodos_self, normalizePositions, List.insertionSort, assignPositions]

/-- C10: accepting the undo action after the snapshot has already expired
(consumeSnapshot returns none) is a silent no-op - the list remains in its
post-destruction state, no undo-success toast is shown and no additional
state broadcast happens, for both the remove-one and the clear-scope
flow. -/
theorem claim_C10_expired_undo_noop :
    (∀ (s : Sys) (scope : ScopeTarget) (todoId : String) (todo : Todo) (now u : Nat),
      (readTodos s.repo scope).find? (fun t => t.id == todoId) = some todo →
      now + UNDO_SNAPSHOT_TTL_MS ≤ u →
        readTodos ((removeTodoWithUndo s scope todoId now true u).1).repo scope
            = normalizePositions
                ((readTodos s.repo scope).filter (fun t => !(t.id == todoId))) ∧
        ((removeTodoWithUndo s scope todoId now true u).1).undoSuccessNotices
            = s.undoSuccessNotices ∧
        ((removeTodoWithUndo s scope todoId now true u).1).broadcasts = s.broadcasts + 1) ∧
    (∀ (cfg : TodoConfig) (s : Sys) (scope : ScopeTarget) (now u : Nat),
      readTodos s.repo scope ≠ [] →
      now + UNDO_SNAPSHOT_TTL_MS ≤ u →
        readTodos ((clearScope cfg s scope true true now u).sys).repo scope = [] ∧
        ((clearScope cfg s scope true true now u).sys).undoSuccessNotices
            = s.undoSuccessNotices ∧
        ((clearScope cfg s scope true true now u).sys).broadcasts = s.broadcasts + 1) := by
  constructor
  · intro s scope todoId todo now u hfind hexp
    have hnl : ¬ (u < now + UNDO_SNAPSHOT_TTL_MS) := Nat.not_lt.mpr hexp
    unfold removeTodoWithUndo
    simp only [hfind]
    simp [broadcastState, cancelTimer, consumeSnapshot, persistTodos_snapshots,
      captureSnapshot, lookupAssoc_setAssoc_self, hnl, readTodos_set_snapshots,
      readTodos_persistTodos_self]
  · intro cfg s scope now u hne hexp
    have h0 : ¬ (readTodos s.repo scope).length = 0 := by
      simpa [List.length_eq_zero] using hne
    rcases cancelScopeTimers_eq s scope (readTodos s.repo scope) with ⟨tm, htm⟩
    simp only [clearScope, h0, if_false, htm]
    split
    · simpa using clearScopeCommit_expired { s with timers := tm } scope
        (readTodos s.repo scope) now u hexp
    · simpa using clearScopeCommit_expired { s with timers := tm } scope
        (readTodos s.repo scope) now u hexp

/-- Witness for C10: in a one-item global scope, removing the item and
accepting the undo only at the TTL boundary leaves the list empty with no
undo-success toast. -/
theorem claim_C10_expired_undo_noop_witness :
    readTodos ((removeTodoWithUndo
        ⟨⟨[⟨"a", "A", false, 1, .global, none, 0⟩], [], [], 1⟩, [], [], 0, 0, 0⟩
        .global "a" 0 true 10000).1).repo .global
      = normalizePositions
          (([⟨"a", "A", false, 1, .global, none, 0⟩] : List Todo).filter
            (fun t => !(t.id == "a"))) ∧
    ((removeTodoWithUndo
        ⟨⟨[⟨"a", "A", false, 1, .global, none, 0⟩], [], [], 1⟩, [], [], 0, 0, 0⟩
        .global "a" 0 true 10000).1).undoSuccessNotices = 0 :=
  ⟨(claim_C10_expired_undo_noop.1
      ⟨⟨[⟨"a", "A", false, 1, .global, none, 0⟩], [], [], 1⟩, [], [], 0, 0, 0⟩
      .global "a" ⟨"a", "A", false, 1, .global, none, 0⟩ 0 10000 (by decide) (by decide)).1,
   (claim_C10_expired_undo_noop.1
      ⟨⟨[⟨"a", "A", false, 1, .global, none, 0⟩], [], [], 1⟩, [], [], 0, 0, 0⟩
      .global "a" ⟨"a", "A", false, 1, .global, none, 0⟩ 0 10000 (by decide) (by decide)).2.1⟩

theorem cancelScopeTimers_preserves_none (s : Sys) (scope : ScopeTarget) (todos : List Todo)
    (key : String) (h : lookupAssoc s.timers key = none) :
    lookupAssoc ((cancelScopeTimers s scope todos)).timers key = none := by
  induction todos generalizing s with
  | nil => exact h
  | cons x xs ih =>
    show lookupAssoc ((cancelScopeTimers (cancelTimer s scope x.id) scope xs)).timers key = none
    exact ih (cancelTimer s scope x.id) (lookupAssoc_eraseAssoc_none _ _ _ h)

theorem lookup_cancelScopeTimers (s : Sys) (scope : ScopeTarget) (todos : List Todo)
    (t : Todo) (ht : t ∈ todos) :
    lookupAssoc ((cancelScopeTimers s scope todos)).timers (buildKey scope t.id) = none := by
  induction todos generalizing s with
  | nil => cases ht
  | cons x xs ih =>
    rcases List.mem_cons.mp ht with h | h
    · subst h
      show lookupAssoc ((cancelScopeTimers (cancelTimer s scope t.id) scope xs)).timers
        (buildKey scope t.id) = none
      exact cancelScopeTimers_preserves_none _ scope xs _ (lookupAssoc_eraseAssoc_self _ _)
    · exact ih (cancelTimer s scope x.id) h

theorem fireTimer_noop (s : Sys) (key : String) (m : Nat)
    (h : lookupAssoc s.timers key = none) : fireTimer s key m = s := by
  unfold fireTimer
  rw [h]

/-- C9: clear-scope on a non-empty scope cancels the pending auto-delete
timers of every todo in the scope before the confirmation prompt, so that
when the user declines the confirmation the persisted repository is
unchanged but no previously scheduled automatic deletion in that scope can
ever fire. -/
theorem claim_C9_clear_cancels_timers (cfg : TodoConfig) (s : Sys) (scope : ScopeTarget)
    (ua : Bool) (now ut : Nat)
    (hconf : cfg.confirmDestructiveActions = true)
    (hlen : 1 < (readTodos s.repo scope).length) :
    (clearScope cfg s scope false ua now ut).sys.repo = s.repo ∧
    (clearScope cfg s scope false ua now ut).confirmPromptShown = true ∧
    (∀ t ∈ readTodos s.repo scope,
      lookupAssoc ((clearScope cfg s scope false ua now ut).sys).timers
          (buildKey scope t.id) = none ∧
      (∀ m, fireTimer ((clearScope cfg s scope false ua now ut).sys)
          (buildKey scope t.id) m = (clearScope cfg s scope false ua now ut).sys)) := by
  have h0 : ¬ (readTodos s.repo scope).length = 0 := by omega
  have hred : clearScope cfg s scope false ua now ut
      = ⟨cancelScopeTimers s scope (readTodos s.repo scope), false, true⟩ := by
    simp [clearScope, h0, hconf, hlen]
  rw [hred]
  refine ⟨cancelScopeTimers_repo s scope _, rfl, fun t ht => ?_⟩
  have hl := lookup_cancelScopeTimers s scope (readTodos s.repo scope) t ht
  exact ⟨hl, fun m => fireTimer_noop _ _ m hl⟩

/-- Witness for C9: a two-item global scope where item "a" has a pending
delay timer; declining the clear confirmation leaves the repository intact
and the timer gone. -/
theorem claim_C9_clear_cancels_timers_witness :
    (clearScope ⟨true, none, none, true⟩
      ⟨⟨[⟨"a", "A", true, 1, .global, none, 0⟩, ⟨"b", "B", false, 2, .global, none, 0⟩],
        [], [], 2⟩,
        [("global:a", ⟨.global, "a", .delayPhase 1500 750⟩)], [], 0, 0, 0⟩
      .global false false 0 0).sys.repo
      = ⟨[⟨"a", "A", true, 1, .global, none, 0⟩, ⟨"b", "B", false, 2, .global, none, 0⟩],
        [], [], 2⟩ ∧
    lookupAssoc ((clearScope ⟨true, none, none, true⟩
      ⟨⟨[⟨"a", "A", true, 1, .global, none, 0⟩, ⟨"b", "B", false, 2, .global, none, 0⟩],
        [], [], 2⟩,
        [("global:a", ⟨.global, "a", .delayPhase 1500 750⟩)], [], 0, 0, 0⟩
      .global false false 0 0).sys).timers (buildKey .global "a") = none :=
  ⟨(claim_C9_clear_cancels_timers ⟨true, none, none, true⟩
      ⟨⟨[⟨"a", "A", true, 1, .global, none, 0⟩, ⟨"b", "B", false, 2, .global, none, 0⟩],
        [], [], 2⟩,
        [("global:a", ⟨.global, "a", .delayPhase 1500 750⟩)], [], 0, 0, 0⟩
      .global false 0 0 rfl (by decide)).1,
   ((claim_C9_clear_cancels_timers ⟨true, none, none, true⟩
      ⟨⟨[⟨"a", "A", true, 1, .global, none, 0⟩, ⟨"b", "B", false, 2, .global, none, 0⟩],
        [], [], 2⟩,
        [("global:a", ⟨.global, "a", .delayPhase 1500 750⟩)], [], 0, 0, 0⟩
      .global false 0 0 rfl (by decide)).2.2
      ⟨"a", "A", true, 1, .global, none, 0⟩ (by decide)).1⟩

/-- C2: removing a todo with the undo flow captures the full pre-removal
list, and accepting the undo inside the grace period restores and persists
a list equal to the original one (ids, titles, completion flags and
positions included; here even the updatedAt fields are untouched), for any
scope whose persisted list is position-normalized, as every persisted list
is. -/
theorem claim_C2_remove_undo_roundtrip (s : Sys) (scope : ScopeTarget) (todoId : String)
    (todo : Todo) (now u : Nat)
    (hfind : (readTodos s.repo scope).find? (fun t => t.id == todoId) = some todo)
    (hnorm : normalizePositions (readTodos s.repo scope) = readTodos s.repo scope)
    (hgrace : u < now + UNDO_SNAPSHOT_TTL_MS) :
    readTodos ((removeTodoWithUndo s scope todoId now true u).1).repo scope
      = readTodos s.repo scope ∧
    ((removeTodoWithUndo s scope todoId now true u).1).undoSuccessNotices
      = s.undoSuccessNotices + 1 := by
  unfold removeTodoWithUndo
  simp only [hfind]
  simp [broadcastState, cancelTimer, consumeSnapshot, persistTodos_snapshots,
    captureSnapshot, lookupAssoc_setAssoc_self, hgrace, readTodos_persistTodos_self, hnorm]

/-- Witness for C2: removing "a" from a normalized two-item global list and
accepting the undo half a second later restores the original list. -/
theorem claim_C2_remove_undo_roundtrip_witness :
    readTodos ((removeTodoWithUndo
        ⟨⟨[⟨"a", "A", false, 1, .global, none, 0⟩, ⟨"b", "B", false, 2, .global, none, 0⟩],
          [], [], 2⟩, [], [], 0, 0, 0⟩
        .global "a" 0 true 500).1).repo .global
      = [⟨"a", "A", false, 1, .global, none, 0⟩, ⟨"b", "B", false, 2, .global, none, 0⟩] :=
  (claim_C2_remove_undo_roundtrip
      ⟨⟨[⟨"a", "A", false, 1, .global, none, 0⟩, ⟨"b", "B", false, 2, .global, none, 0⟩],
        [], [], 2⟩, [], [], 0, 0, 0⟩
      .global "a" ⟨"a", "A", false, 1, .global, none, 0⟩ 0 500
      (by decide) (by decide) (by decide)).1

/-! Reorder lemmas. -/

theorem stampPositions_map_id (l : List Todo) (n now : Nat) :
    (stampPositions l n now).map (fun t => t.id) = l.map (fun t => t.id) := by
  induction l generalizing n with
  | nil => rfl
  | cons t ts ih =>
    by_cases h : t.position = n <;> simp [stampPositions, h, ih]

theorem stampPositions_map_position (l : List Todo) (n now : Nat) :
    (stampPositions l n now).map (fun t => t.position) = List.range' n l.length := by
  induction l generalizing n with
  | nil => rfl
  | cons t ts ih =>
    by_cases h : t.position = n <;> simp [stampPositions, h, ih, List.range'_succ]

theorem filterMap_find?_filter_known (todos : List Todo) (ids : List String) :
    (ids.filter (fun i => todos.any (fun u => u.id == i))).filterMap
        (fun i => todos.find? (fun t => t.id == i))
      = ids.filterMap (fun i => todos.find? (fun t => t.id == i)) := by
  induction ids with
  | nil => rfl
  | cons i is ih =>
    by_cases h : todos.any (fun u => u.id == i)
    · simp [List.filter_cons, h, List.filterMap_cons, ih]
    · have hno : ∀ x ∈ todos, ¬ (x.id == i) = true := by
        intro x hx hbeq
        exact h (List.any_eq_true.mpr ⟨x, hx, hbeq⟩)
      have hf : todos.find? (fun t => t.id == i) = none := List.find?_eq_none.mpr hno
      simp [List.filter_cons, h, List.filterMap_cons, hf, ih]

theorem contains_filter_known (todos : List Todo) (t : Todo) (ht : t ∈ todos)
    (ids : List String) :
    (ids.filter (fun i => todos.any (fun u => u.id == i))).contains t.id
      = ids.contains t.id := by
  induction ids with
  | nil => rfl
  | cons i is ih =>
    have hex : ∃ x ∈ todos, x.id = t.id := ⟨t, ht, rfl⟩
    by_cases hi : todos.any (fun u => u.id == i)
    · simp [List.filter_cons, hi, List.contains_cons, ih, hex]
    · have hti : ¬ t.id = i := by
        intro hEq
        exact hi (List.any_eq_true.mpr ⟨t, ht, by simp [hEq]⟩)
      simp [List.filter_cons, hi, List.contains_cons, ih, hex, hti]

theorem computeOrder_filter_known (todos : List Todo) (ids : List String) :
    computeOrder todos (ids.filter (fun i => todos.any (fun u => u.id == i)))
      = computeOrder todos ids := by
  unfold computeOrder
  rw [filterMap_find?_filter_known]
  congr 1
  apply List.filter_congr
  intro t ht
  rw [contains_filter_known todos t ht ids]

/-- C4: reorderTodosByOrder returns false with no mutation when the list
has at most one item or the computed order equals the existing order;
otherwise it puts the todos named in the id sequence first (unknown ids
ignored), followed by the unnamed todos in their prior relative order,
reassigns positions 1..N and returns true; on three todos a,b,c at
positions 1,2,3 reordering by [c,a] yields order c,a,b at positions 1,2,3
with result true and reordering the result by its own order returns
false. -/
theorem claim_C4_reorder_correctness :
    (∀ (todos : List Todo) (ids : List String) (now : Nat), todos.length ≤ 1 →
      reorderTodosByOrder todos ids now = (todos, false)) ∧
    (∀ (todos : List Todo) (ids : List String) (now : Nat),
      (computeOrder todos ids).map (fun t => t.id) = todos.map (fun t => t.id) →
      reorderTodosByOrder todos ids now = (todos, false)) ∧
    (∀ (todos : List Todo) (ids : List String) (now : Nat),
      (reorderTodosByOrder todos ids now).2 = false →
      (reorderTodosByOrder todos ids now).1 = todos) ∧
    (∀ (todos : List Todo) (ids : List String) (now : Nat),
      reorderTodosByOrder todos (ids.filter (fun i => todos.any (fun u => u.id == i))) now
        = reorderTodosByOrder todos ids now) ∧
    (∀ (todos : List Todo) (ids : List String) (now : Nat), 1 < todos.length →
      (computeOrder todos ids).map (fun t => t.id) ≠ todos.map (fun t => t.id) →
      reorderTodosByOrder todos ids now = (stampPositions (computeOrder todos ids) 1 now, true) ∧
      (reorderTodosByOrder todos ids now).1.map (fun t => t.id)
        = (computeOrder todos ids).map (fun t => t.id) ∧
      (reorderTodosByOrder todos ids now).1.map (fun t => t.position)
        = List.range' 1 (computeOrder todos ids).length) ∧
    (reorderTodosByOrder
        [⟨"a", "A", false, 1, .global, none, 0⟩, ⟨"b", "B", false, 2, .global, none, 0⟩,
         ⟨"c", "C", false, 3, .global, none, 0⟩] ["c", "a"] 9).1.map
        (fun t => (t.id, t.position)) = [("c", 1), ("a", 2), ("b", 3)] ∧
    (reorderTodosByOrder
        [⟨"a", "A", false, 1, .global, none, 0⟩, ⟨"b", "B", false, 2, .global, none, 0⟩,
         ⟨"c", "C", false, 3, .global, none, 0⟩] ["c", "a"] 9).2 = true ∧
    (reorderTodosByOrder
        (reorderTodosByOrder
          [⟨"a", "A", false, 1, .global, none, 0⟩, ⟨"b", "B", false, 2, .global, none, 0⟩,
           ⟨"c", "C", false, 3, .global, none, 0⟩] ["c", "a"] 9).1
        ["c", "a", "b"] 11).2 = false := by
  refine ⟨?_, ?_, ?_, ?_, ?_, by decide, by decide, by decide⟩
  · intro todos ids now h
    simp [reorderTodosByOrder, h]
  · intro todos ids now h
    simp [reorderTodosByOrder, computeOrder] at h ⊢
    intro
    simp [h]
  · intro todos ids now h
    by_cases h1 : todos.length ≤ 1
    · simp [reorderTodosByOrder, h1]
    · by_cases h2 : (computeOrder todos ids).map (fun t => t.id)
          = todos.map (fun t => t.id)
      · simp [reorderTodosByOrder, h1, h2]
      · exfalso
        have htrue : (reorderTodosByOrder todos ids now).2 = true := by
          simp [reorderTodosByOrder, h1, h2]
        rw [h] at htrue
        exact Bool.false_ne_true htrue
  · intro todos ids now
    unfold reorderTodosByOrder
    rw [computeOrder_filter_known]
  · intro todos ids now hlen hne
    have h0 : ¬ todos.length ≤ 1 := by omega
    refine ⟨?_, ?_, ?_⟩
    · simp [reorderTodosByOrder, computeOrder] at hne ⊢
      simp [h0, hne]
    · simp [reorderTodosByOrder, computeOrder] at hne ⊢
      simp [h0, hne, stampPositions_map_id]
    · simp [reorderTodosByOrder, computeOrder] at hne ⊢
      simp [h0, hne, stampPositions_map_position]

/-- Witness for C4: a singleton list is returned unchanged with false, and
filtering the unknown id "z" out of the id sequence does not change the
result. -/
theorem claim_C4_reorder_correctness_witness :
    reorderTodosByOrder [⟨"a", "A", false, 1, .global, none, 0⟩] ["a"] 3
      = ([⟨"a", "A", false, 1, .global, none, 0⟩], false) ∧
    reorderTodosByOrder
        [⟨"a", "A", false, 1, .global, none, 0⟩, ⟨"b", "B", false, 2, .global, none, 0⟩]
        (["z", "b"].filter (fun i =>
          ([⟨"a", "A", false, 1, .global, none, 0⟩,
            ⟨"b", "B", false, 2, .global, none, 0⟩] : List Todo).any (fun u => u.id == i))) 3
      = reorderTodosByOrder
          [⟨"a", "A", false, 1, .global, none, 0⟩, ⟨"b", "B", false, 2, .global, none, 0⟩]
          ["z", "b"] 3 :=
  ⟨claim_C4_reorder_correctness.1 [⟨"a", "A", false, 1, .global, none, 0⟩] ["a"] 3 (by decide),
   claim_C4_reorder_correctness.2.2.2.1
     [⟨"a", "A", false, 1, .global, none, 0⟩, ⟨"b", "B", false, 2, .global, none, 0⟩]
     ["z", "b"] 3⟩

/-- After clearScopeCommit without undo acceptance, the repository holds
the pre-clear list as a snapshot under the scope key, expiring at
now + UNDO_SNAPSHOT_TTL_MS. -/
theorem clearScopeCommit_declined_snapshot (s : Sys) (scope : ScopeTarget)
    (todos : List Todo) (now ut : Nat) :
    lookupAssoc ((clearScopeCommit s scope todos false now ut).repo).snapshots
        (scopeKey scope)
      = some ⟨todos, now + UNDO_SNAPSHOT_TTL_MS⟩ := by
  simp [clearScopeCommit, broadcastState, persistTodos_snapshots, captureSnapshot,
    lookupAssoc_setAssoc_self]

/-- After a clear-scope on a non-empty scope (confirmed when prompted)
whose undo is not accepted, the repository holds the pre-clear list as a
snapshot under the scope key, expiring at now + UNDO_SNAPSHOT_TTL_MS. -/
theorem clearScope_declined_snapshot (cfg : TodoConfig) (s : Sys) (scope : ScopeTarget)
    (now ut : Nat) (hne : readTodos s.repo scope ≠ []) :
    lookupAssoc (((clearScope cfg s scope true false now ut).sys).repo).snapshots
        (scopeKey scope)
      = some ⟨readTodos s.repo scope, now + UNDO_SNAPSHOT_TTL_MS⟩ := by
  have h0 : ¬ (readTodos s.repo scope).length = 0 := by
    simpa [List.length_eq_zero] using hne
  rcases cancelScopeTimers_eq s scope (readTodos s.repo scope) with ⟨tm, htm⟩
  simp only [clearScope, h0, if_false, htm]
  split
  · simpa using clearScopeCommit_declined_snapshot { s with timers := tm } scope
      (readTodos s.repo scope) now ut
  · simpa using clearScopeCommit_declined_snapshot { s with timers := tm } scope
      (readTodos s.repo scope) now ut

/-- C3: consumeSnapshot atomically returns and clears the stored snapshot,
returns none when no snapshot is present, any further consume after the
first is an idempotent no-op returning none, and after a destructive
action - remove-one or clear-scope - whose undo is not accepted, the
snapshot is returned before the fixed 10-second TTL has elapsed and none
is returned once it has elapsed. -/
theorem claim_C3_snapshot_consume_and_ttl :
    (∀ (r : TodoRepository) (key : String) (now : Nat),
      lookupAssoc r.snapshots key = none → consumeSnapshot r key now = (none, r)) ∧
    (∀ (r : TodoRepository) (key : String) (now : Nat) (e : SnapshotEntry),
      lookupAssoc r.snapshots key = some e →
        lookupAssoc ((consumeSnapshot r key now).2).snapshots key = none ∧
        (now < e.expiresAt → (consumeSnapshot r key now).1 = some e.todos)) ∧
    (∀ (r : TodoRepository) (key : String) (now later : Nat),
      consumeSnapshot ((consumeSnapshot r key now).2) key later
        = (none, (consumeSnapshot r key now).2)) ∧
    (∀ (s : Sys) (scope : ScopeTarget) (todoId : String) (todo : Todo) (now u : Nat),
      (readTodos s.repo scope).find? (fun t => t.id == todoId) = some todo →
        (u < now + UNDO_SNAPSHOT_TTL_MS →
          (consumeSnapshot ((removeTodoWithUndo s scope todoId now false 0).1).repo
            (scopeKey scope) u).1 = some (readTodos s.repo scope)) ∧
        (now + UNDO_SNAPSHOT_TTL_MS ≤ u →
          (consumeSnapshot ((removeTodoWithUndo s scope todoId now false 0).1).repo
            (scopeKey scope) u).1 = none)) ∧
    (∀ (cfg : TodoConfig) (s : Sys) (scope : ScopeTarget) (now ut u : Nat),
      readTodos s.repo scope ≠ [] →
        (u < now + UNDO_SNAPSHOT_TTL_MS →
          (consumeSnapshot ((clearScope cfg s scope true false now ut).sys).repo
            (scopeKey scope) u).1 = some (readTodos s.repo scope)) ∧
        (now + UNDO_SNAPSHOT_TTL_MS ≤ u →
          (consumeSnapshot ((clearScope cfg s scope true false now ut).sys).repo
            (scopeKey scope) u).1 = none)) := by
  refine ⟨consumeSnapshot_absent, ?_, ?_, ?_, ?_⟩
  · intro r key now e h
    exact ⟨consumeSnapshot_clears r key now, fun hlt => consumeSnapshot_fresh r key now e h hlt⟩
  · intro r key now later
    exact consumeSnapshot_absent _ key later (consumeSnapshot_clears r key now)
  · intro s scope todoId todo now u hfind
    have hsnap := removeTodoWithUndo_declined_snapshot s scope todoId todo now hfind
    exact ⟨fun hlt => consumeSnapshot_fresh _ _ _ _ hsnap hlt,
           fun hge => consumeSnapshot_stale _ _ _ _ hsnap hge⟩
  · intro cfg s scope now ut u hne
    have hsnap := clearScope_declined_snapshot cfg s scope now ut hne
    exact ⟨fun hlt => consumeSnapshot_fresh _ _ _ _ hsnap hlt,
           fun hge => consumeSnapshot_stale _ _ _ _ hsnap hge⟩

/-- Witness for C3: a concrete declined remove and a concrete declined
clear on one-item global lists; each snapshot is readable at 9999 ms and
gone at 10000 ms. -/
theorem claim_C3_snapshot_consume_and_ttl_witness :
    (consumeSnapshot
      ((removeTodoWithUndo
        ⟨⟨[⟨"a", "A", false, 1, .global, none, 0⟩], [], [], 1⟩, [], [], 0, 0, 0⟩
        .global "a" 0 false 0).1).repo "global" 9999).1
      = some [⟨"a", "A", false, 1, .global, none, 0⟩] ∧
    (consumeSnapshot
      ((removeTodoWithUndo
        ⟨⟨[⟨"a", "A", false, 1, .global, none, 0⟩], [], [], 1⟩, [], [], 0, 0, 0⟩
        .global "a" 0 false 0).1).repo "global" 10000).1
      = none ∧
    (consumeSnapshot
      ((clearScope ⟨true, none, none, true⟩
        ⟨⟨[⟨"a", "A", false, 1, .global, none, 0⟩], [], [], 1⟩, [], [], 0, 0, 0⟩
        .global true false 0 0).sys).repo "global" 9999).1
      = some [⟨"a", "A", false, 1, .global, none, 0⟩] ∧
    (consumeSnapshot
      ((clearScope ⟨true, none, none, true⟩
        ⟨⟨[⟨"a", "A", false, 1, .global, none, 0⟩], [], [], 1⟩, [], [], 0, 0, 0⟩
        .global true false 0 0).sys).repo "global" 10000).1
      = none :=
  ⟨(claim_C3_snapshot_consume_and_ttl.2.2.2.1
      ⟨⟨[⟨"a", "A", false, 1, .global, none, 0⟩], [], [], 1⟩, [], [], 0, 0, 0⟩
      .global "a" ⟨"a", "A", false, 1, .global, none, 0⟩ 0 9999 (by decide)).1 (by decide),
   (claim_C3_snapshot_consume_and_ttl.2.2.2.1
      ⟨⟨[⟨"a", "A", false, 1, .global, none, 0⟩], [], [], 1⟩, [], [], 0, 0, 0⟩
      .global "a" ⟨"a", "A", false, 1, .global, none, 0⟩ 0 10000 (by decide)).2 (by decide),
   (claim_C3_snapshot_consume_and_ttl.2.2.2.2 ⟨true, none, none, true⟩
      ⟨⟨[⟨"a", "A", false, 1, .global, none, 0⟩], [], [], 1⟩, [], [], 0, 0, 0⟩
      .global 0 0 9999 (by decide)).1 (by decide),
   (claim_C3_snapshot_consume_and_ttl.2.2.2.2 ⟨true, none, none, true⟩
      ⟨⟨[⟨"a", "A", false, 1, .global, none, 0⟩], [], [], 1⟩, [], [], 0, 0, 0⟩
      .global 0 0 10000 (by decide)).2 (by decide)⟩

/-! Lemmas tracking a todo through normalization by its unique id. -/

theorem stripPos_id_eq {a b : Todo} (h : stripPos a = stripPos b) : a.id = b.id :=
  congrArg (fun q => q.1) h

theorem stripPos_completed_eq {a b : Todo} (h : stripPos a = stripPos b) :
    a.completed = b.completed :=
  congrArg (fun q => q.2.2.1) h

theorem find?_normalizePositions_nodup (l : List Todo) (tid : String) (u : Todo)
    (hn : (l.map (fun t => t.id)).Nodup) (hu : u ∈ l) (hid : u.id = tid) :
    ∃ v, (normalizePositions l).find? (fun t => t.id == tid) = some v ∧
      stripPos v = stripPos u := by
  rcases normalizePositions_mem l u hu with ⟨x, hx, hsx⟩
  have hxid : x.id = u.id := stripPos_id_eq hsx
  have hpx : (fun t => t.id == tid) x = true := by
    simp [hxid, hid]
  rcases find?_exists_of_mem (fun t => t.id == tid) (normalizePositions l) x hx hpx with ⟨v, hv⟩
  refine ⟨v, hv, ?_⟩
  have hvmem := List.mem_of_find?_eq_some hv
  have hpv : (v.id == tid) = true := by simpa using List.find?_some hv
  have hvid : v.id = tid := eq_of_beq hpv
  have hn2 : ((normalizePositions l).map (fun t => t.id)).Nodup :=
    normalizePositions_nodup_id l hn
  have hvx : v = x := List.inj_on_of_nodup_map hn2 hvmem hx (by rw [hvid, hxid, hid])
  rw [hvx, hsx]

theorem normalize_filter_no_id (l : List Todo) (tid : String) :
    ∀ v ∈ normalizePositions (l.filter (fun t => !(t.id == tid))), v.id ≠ tid := by
  intro v hv
  rcases mem_normalizePositions _ v hv with ⟨y, hy, hsy⟩
  have hyid : y.id = v.id := stripPos_id_eq hsy
  have hyp := List.of_mem_filter hy
  intro hvid
  rw [← hyid] at hvid
  simp [hvid] at hyp

/-- C1: with auto-delete enabled, toggling an active todo to completed
through the webview handler (whose wire scope resolves, i.e. is global or
names a non-empty workspace folder) schedules a delay timer under the key
built from (scope, todoId); toggling
it back to active before the delay elapses cancels the timer, the todo
stays in its list as active, and the (now absent) timer can never fire; if
it stays completed, firing the delay timer at its due time posts exactly
one fade cue carrying the configured fade duration and arms the fade
timer, and firing that after the additional fade duration removes the todo
from its scope through the remove-without-undo path - capturing no undo
snapshot and showing no undo prompt. -/
theorem claim_C1_auto_delete_lifecycle (cfg : TodoConfig) (s : Sys) (scope : ScopeTarget)
    (tid : String) (todo : Todo) (n0 n1 d fd : Nat) (key : String)
    (henabled : cfg.autoDeleteCompleted = true)
    (hres : scopeFromWebviewScope scope = some scope)
    (hd : d = sanitizeDelay cfg.autoDeleteDelayMs DEFAULT_AUTO_DELETE_DELAY_MS)
    (hfd : fd = sanitizeDelay cfg.autoDeleteFadeMs DEFAULT_AUTO_DELETE_FADE_MS)
    (hkey : key = buildKey scope tid)
    (hnodup : ((readTodos s.repo scope).map (fun t => t.id)).Nodup)
    (hfind : (readTodos s.repo scope).find? (fun t => t.id == tid) = some todo)
    (hactive : todo.completed = false)
    (_hbefore : n1 < n0 + d) :
    ∀ s1 s2 sF sD : Sys,
      s1 = (handleWebviewToggle cfg s scope tid n0).1 →
      s2 = (handleWebviewToggle cfg s1 scope tid n1).1 →
      sF = fireTimer s1 key (n0 + d) →
      sD = fireTimer sF key (n0 + d + fd) →
      lookupAssoc s1.timers key = some ⟨scope, tid, .delayPhase (n0 + d) fd⟩ ∧
      lookupAssoc s2.timers key = none ∧
      (∃ u ∈ readTodos s2.repo scope, u.id = tid ∧ u.completed = false) ∧
      (∀ m, fireTimer s2 key m = s2) ∧
      sF.cues = s1.cues ++ [⟨scope, tid, fd⟩] ∧
      lookupAssoc sF.timers key = some ⟨scope, tid, .fadePhase (n0 + d + fd)⟩ ∧
      (∀ w ∈ readTodos sD.repo scope, w.id ≠ tid) ∧
      lookupAssoc sD.timers key = none ∧
      sD.repo.snapshots = s.repo.snapshots ∧
      sD.undoPrompts = s.undoPrompts := by
  intro s1 s2 sF sD hs1eq hs2eq hsFeq hsDeq
  have htid : todo.id = tid := by
    have := List.find?_some hfind
    exact eq_of_beq (by simpa using this)
  -- the list persisted by the first toggle
  have hs1 : s1 = ⟨persistTodos s.repo scope
      (updateFirst (fun t => t.id == tid)
        (fun t => { t with completed := !t.completed, updatedAt := n0 })
        (readTodos s.repo scope)),
      setAssoc (eraseAssoc s.timers key) key ⟨scope, tid, .delayPhase (n0 + d) fd⟩,
      s.cues, s.broadcasts, s.undoPrompts, s.undoSuccessNotices⟩ := by
    rw [hs1eq]
    unfold handleWebviewToggle
    simp only [hres]
    simp only [hfind]
    simp [scheduleAutoDelete, henabled, hactive, cancelTimer, htid, hd, hfd, hkey]
  have hc1 : lookupAssoc s1.timers key = some ⟨scope, tid, .delayPhase (n0 + d) fd⟩ := by
    rw [hs1]
    exact lookupAssoc_setAssoc_self _ _ _
  have hreads1 : readTodos s1.repo scope
      = normalizePositions (updateFirst (fun t => t.id == tid)
          (fun t => { t with completed := !t.completed, updatedAt := n0 })
          (readTodos s.repo scope)) := by
    rw [hs1]
    exact readTodos_persistTodos_self _ _ _
  -- id multiset of the updated list is unchanged, hence still nodup
  have hidnext : (updateFirst (fun t => t.id == tid)
        (fun t => { t with completed := !t.completed, updatedAt := n0 })
        (readTodos s.repo scope)).map (fun t => t.id)
      = (readTodos s.repo scope).map (fun t => t.id) :=
    updateFirst_map_id (fun t => t.id == tid)
      (fun t => { t with completed := !t.completed, updatedAt := n0 })
      (fun x => rfl) (readTodos s.repo scope)
  have hnodup1 : ((updateFirst (fun t => t.id == tid)
        (fun t => { t with completed := !t.completed, updatedAt := n0 })
        (readTodos s.repo scope)).map (fun t => t.id)).Nodup := by
    rw [hidnext]
    exact hnodup
  -- the toggled element lives in the updated list
  have ht1mem : ({ todo with completed := !todo.completed, updatedAt := n0 } : Todo)
      ∈ updateFirst (fun t => t.id == tid)
        (fun t => { t with completed := !t.completed, updatedAt := n0 })
        (readTodos s.repo scope) :=
    updateFirst_mem_of_find? _ _ _ _ hfind
  rcases find?_normalizePositions_nodup _ tid _ hnodup1 ht1mem htid with ⟨v, hvfind, hvstrip⟩
  have hvid : v.id = tid := by
    have := stripPos_id_eq hvstrip
    simpa [htid] using this
  have hvcomp : v.completed = true := by
    have := stripPos_completed_eq hvstrip
    simpa [hactive] using this
  have hfind1 : (readTodos s1.repo scope).find? (fun t => t.id == tid) = some v := by
    rw [hreads1]
    exact hvfind
  have hvmemL1 : v ∈ readTodos s1.repo scope := by
    rw [hreads1]
    exact List.mem_of_find?_eq_some hvfind
  -- second toggle cancels
  have hs2 : s2 = ⟨persistTodos s1.repo scope
      (updateFirst (fun t => t.id == tid)
        (fun t => { t with completed := !t.completed, updatedAt := n1 })
        (readTodos s1.repo scope)),
      eraseAssoc s1.timers key, s1.cues, s1.broadcasts, s1.undoPrompts,
      s1.undoSuccessNotices⟩ := by
    rw [hs2eq]
    unfold handleWebviewToggle
    simp only [hres]
    simp only [hfind1]
    simp [hvcomp, cancelTimer, hvid, hkey]
  have hc2a : lookupAssoc s2.timers key = none := by
    rw [hs2]
    exact lookupAssoc_eraseAssoc_self _ _
  have hreads2 : readTodos s2.repo scope
      = normalizePositions (updateFirst (fun t => t.id == tid)
          (fun t => { t with completed := !t.completed, updatedAt := n1 })
          (readTodos s1.repo scope)) := by
    rw [hs2]
    exact readTodos_persistTodos_self _ _ _
  have hc2b : ∃ u ∈ readTodos s2.repo scope, u.id = tid ∧ u.completed = false := by
    have hmem2 : ({ v with completed := !v.completed, updatedAt := n1 } : Todo)
        ∈ updateFirst (fun t => t.id == tid)
          (fun t => { t with completed := !t.completed, updatedAt := n1 })
          (readTodos s1.repo scope) :=
      updateFirst_mem_of_find? _ _ _ _ hfind1
    rcases normalizePositions_mem _ _ hmem2 with ⟨u, humem, hustrip⟩
    refine ⟨u, by rw [hreads2]; exact humem, ?_, ?_⟩
    · have := stripPos_id_eq hustrip
      simpa [hvid] using this
    · have := stripPos_completed_eq hustrip
      simpa [hvcomp] using this
  -- firing the delay timer
  have hsF : sF = ⟨s1.repo, setAssoc s1.timers key ⟨scope, tid, .fadePhase (n0 + d + fd)⟩,
      s1.cues ++ [⟨scope, tid, fd⟩], s1.broadcasts, s1.undoPrompts,
      s1.undoSuccessNotices⟩ := by
    rw [hsFeq]
    unfold fireTimer
    rw [hc1]
  have hcF : lookupAssoc sF.timers key = some ⟨scope, tid, .fadePhase (n0 + d + fd)⟩ := by
    rw [hsF]
    exact lookupAssoc_setAssoc_self _ _ _
  -- firing the fade timer removes the todo via the remove-without-undo path
  have hlt : (((readTodos s1.repo scope).filter (fun t => !(t.id == tid))).length)
      < (readTodos s1.repo scope).length :=
    List.length_filter_lt_length_iff_exists.mpr ⟨v, hvmemL1, by simp [hvid]⟩
  have hlen : ¬ (((readTodos s1.repo scope).filter (fun t => !(t.id == tid))).length
      = (readTodos s1.repo scope).length) :=
    Nat.ne_of_lt hlt
  have hsD : sD = broadcastState
      ⟨persistTodos s1.repo scope
          ((readTodos s1.repo scope).filter (fun t => !(t.id == tid))),
        eraseAssoc sF.timers key, sF.cues, sF.broadcasts, sF.undoPrompts,
        sF.undoSuccessNotices⟩ := by
    rw [hsDeq]
    unfold fireTimer
    rw [hcF]
    unfold removeTodoWithoutUndo
    have hrepoF : sF.repo = s1.repo := by rw [hsF]
    simp [hrepoF, hlen]
  refine ⟨hc1, hc2a, hc2b, fun m => fireTimer_noop s2 key m hc2a, by rw [hsF], hcF, ?_, ?_, ?_, ?_⟩
  · intro w hw
    have hreadD : readTodos sD.repo scope
        = normalizePositions ((readTodos s1.repo scope).filter (fun t => !(t.id == tid))) := by
      rw [hsD]
      exact readTodos_persistTodos_self _ _ _
    rw [hreadD] at hw
    exact normalize_filter_no_id _ tid w hw
  · rw [hsD]
    exact lookupAssoc_eraseAssoc_self _ _
  · rw [hsD]
    show (persistTodos s1.repo scope _).snapshots = s.repo.snapshots
    rw [persistTodos_snapshots]
    rw [hs1]
    show (persistTodos s.repo scope _).snapshots = s.repo.snapshots
    exact persistTodos_snapshots _ _ _
  · rw [hsD]
    show sF.undoPrompts = s.undoPrompts
    rw [hsF]
    show s1.undoPrompts = s.undoPrompts
    rw [hs1]

/-- Concrete configuration for the C1 witness scenario. -/
def cfgW : TodoConfig :=
  ⟨true, some 1500, some 750, true⟩

/-- Concrete starting state for the C1 witness scenario: one active todo
"a" in the global scope. -/
def sysW : Sys :=
  ⟨⟨[⟨"a", "A", false, 1, .global, none, 0⟩], [], [], 1⟩, [], [], 0, 0, 0⟩

/-- The C1 witness state after toggling "a" to completed at time 0. -/
def sW1 : Sys :=
  (handleWebviewToggle cfgW sysW .global "a" 0).1

/-- The C1 witness state after the delay timer fires at time 1500. -/
def sWF : Sys :=
  fireTimer sW1 "global:a" (0 + 1500)

/-- The C1 witness state after the fade timer fires at time 2250. -/
def sWD : Sys :=
  fireTimer sWF "global:a" (0 + 1500 + 750)

/-- Witness for C1: in the concrete scenario the delay timer is scheduled,
the fade cue carries 750 ms, and after the fade fires the timer entry and
the todo are gone with no snapshot captured. -/
theorem claim_C1_auto_delete_lifecycle_witness :
    lookupAssoc sW1.timers "global:a" = some ⟨.global, "a", .delayPhase (0 + 1500) 750⟩ ∧
    sWF.cues = sW1.cues ++ [⟨.global, "a", 750⟩] ∧
    lookupAssoc sWD.timers "global:a" = none ∧
    sWD.repo.snapshots = sysW.repo.snapshots := by
  have h := claim_C1_auto_delete_lifecycle cfgW sysW .global "a"
    ⟨"a", "A", false, 1, .global, none, 0⟩ 0 100 1500 750 "global:a"
    rfl rfl (by decide) (by decide) (by decide) (by decide) (by decide) rfl (by decide)
    sW1 (handleWebviewToggle cfgW sW1 .global "a" 100).1 sWF sWD rfl rfl rfl rfl
  exact ⟨h.1, h.2.2.2.2.1, h.2.2.2.2.2.2.2.1, h.2.2.2.2.2.2.2.2.1⟩

end VT
